import Mathlib

/-!
Verification development for the ELL repository sources:
  * src/libraries/data/include/SparseDataVector.h
  * src/libraries/model/include/MapCompiler.h

The C++ sources are shallowly embedded as executable Lean definitions.  Machine
values that the claims inspect are modelled over `Nat` (indices, sizes, ids)
and `Int` (element values); the element cast `static_cast<ElementType>(value)`
is the identity at the instantiation used here (exact integral values), so the
rounding assertion in `AppendElement` holds trivially and is not modelled
further.  Stateful C++ code becomes explicit state passing, and code that
throws becomes `Except`-valued code.
-/

namespace ELL

namespace Data

/-- Embeds `IndexValue` (IndexValue.h): an index paired with the element value there.
The C++ `double` value field is modelled as `Int`. -/
structure IndexValue where
  index : Nat
  value : Int
deriving DecidableEq, Repr

/-- The error cause `utilities::InputExceptionErrors::indexOutOfRange` thrown by
`SparseDataVector::AppendElement`. -/
inductive DataError where
  | indexOutOfRange
deriving DecidableEq, Repr

/-- Modelled from the spec: `utilities::CompressedIntegerList` is not under
src (the data library header only includes it); it is the increasing list of
indices of a sparse vector, and `Max()` returns the largest stored index.
Modelled as the maximum of a list of naturals (`0` on the empty list; the one
call site guards with `Size() > 0`). -/
def listMax (l : List Nat) : Nat := l.foldl max 0

/-- Embeds `SparseDataVector<ElementType, IndexListType>` (SparseDataVector.h lines
203-207): an increasing list of indices `_indexList` and the corresponding
stored values `_values`. -/
structure SparseDataVector where
  indexList : List Nat
  values : List Int
deriving DecidableEq, Repr

/-- Embeds `SparseDataVector::AppendElement` (SparseDataVector.h lines 337-358):
a zero value returns at once; otherwise, if the vector is non-empty and
`index <= _indexList.Max()`, an input exception is thrown before any list is
touched; otherwise the index and the (identically) converted value are
appended.  The throw is modelled as an `Except.error`, which leaves the
receiver unchanged. -/
def AppendElement (v : SparseDataVector) (index : Nat) (value : Int) :
    Except DataError SparseDataVector :=
  if value = 0 then
    .ok v
  else if 0 < v.indexList.length ∧ index ≤ listMax v.indexList then
    .error .indexOutOfRange
  else
    .ok ⟨v.indexList ++ [index], v.values ++ [value]⟩

/-- Embeds `SparseDataVector::PrefixLength` (SparseDataVector.h lines 360-371):
`0` when `_indexList.Size() == 0`, else `_indexList.Max() + 1`. -/
def PrefixLength (v : SparseDataVector) : Nat :=
  if v.indexList.length = 0 then 0 else listMax v.indexList + 1

/-- The state of `SparseDataVectorIterator<IterationPolicy::all>`
(SparseDataVector.h lines 71-106): the remaining index iterator and value
iterator (modelled as the lists still to be traversed), `_iteratorIndex`,
`_size` and `_index`. -/
structure AllIterator where
  indices : List Nat
  values : List Int
  iteratorIndex : Nat
  size : Nat
  index : Nat
deriving DecidableEq, Repr

/-- Embeds `SparseDataVectorIterator<IterationPolicy::all>::IsValid`
(SparseDataVector.h line 83): `_index < _size`. -/
def AllIterator.IsValid (s : AllIterator) : Bool := s.index < s.size

/-- Embeds `SparseDataVectorIterator<IterationPolicy::all>::Get` (SparseDataVector.h
lines 280-288): the current index with the stored value when `_index` has
caught up with `_iteratorIndex`, else the current index with value `0`. -/
def AllIterator.Get (s : AllIterator) : IndexValue :=
  if s.index = s.iteratorIndex then ⟨s.index, s.values.headD 0⟩
  else ⟨s.index, 0⟩

/-- Embeds `SparseDataVectorIterator<IterationPolicy::all>::Next` (SparseDataVector.h
lines 261-278): when `_index == _iteratorIndex`, both underlying iterators
advance and `_iteratorIndex` becomes the next stored index when it is still
below `_size`, else `_size`; in every case `_index` increments. -/
def AllIterator.Next (s : AllIterator) : AllIterator :=
  if s.index = s.iteratorIndex then
    let indices := s.indices.tail
    let values := s.values.tail
    let itIdx :=
      match indices.head? with
      | some i => if i < s.size then i else s.size
      | none => s.size
    ⟨indices, values, itIdx, s.size, s.index + 1⟩
  else
    ⟨s.indices, s.values, s.iteratorIndex, s.size, s.index + 1⟩

/-- Embeds `SparseDataVector::GetIterator<IterationPolicy::all>(size)`
(SparseDataVector.h lines 306-311 with the iterator constructor at lines
290-297): both member iterators start at the beginning, and `_iteratorIndex`
is the first stored index when one exists, else `_size`. -/
def GetIteratorAll (v : SparseDataVector) (size : Nat) : AllIterator :=
  ⟨v.indexList, v.values,
    match v.indexList.head? with
    | some i => i
    | none => size,
    size, 0⟩

/-- One step of the standard iteration protocol of `IIndexValueIterator`
(while `IsValid()`: `Get()` then `Next()`), with explicit fuel for structural
recursion.  `AllIterator.toList` supplies exactly enough fuel. -/
def AllIterator.toListAux : Nat → AllIterator → List IndexValue
  | 0, _ => []
  | fuel + 1, s => if s.IsValid then s.Get :: toListAux fuel s.Next else []

/-- The full sequence of iterates produced by the iteration protocol:
`Next` increments `_index` by one and never changes `_size`, so
`_size - _index` steps always suffice. -/
def AllIterator.toList (s : AllIterator) : List IndexValue :=
  AllIterator.toListAux (s.size - s.index) s

/-- The value a sparse vector stores at index `i`: the value paired with the
first occurrence of `i` in the index list, or `0` when `i` is not stored. -/
def storedValueAt : List Nat → List Int → Nat → Int
  | [], _, _ => 0
  | _ :: _, [], _ => 0
  | j :: js, x :: xs, i => if j = i then x else storedValueAt js xs i

/-- The class invariant of `SparseDataVector`, maintained by `AppendElement`:
indices are strictly increasing and in bijection with the stored values. -/
def WellFormed (v : SparseDataVector) : Prop :=
  List.Pairwise (· < ·) v.indexList ∧ v.indexList.length = v.values.length

instance (v : SparseDataVector) : Decidable (WellFormed v) := by
  unfold WellFormed
  infer_instance

end Data

namespace Model

/-- The scalar type carried by a port (`Port::PortType`, OutputPort.h). -/
inductive PortType where
  | real
  | integer
  | boolean
deriving DecidableEq, Repr

/-- The scalar type of an emitter variable (`emitters::VariableType`). -/
inductive VariableType where
  | vtDouble
  | vtInt
  | vtByte
deriving DecidableEq, Repr

/-- Embeds `emitters::VariableScope`: the scope a variable is created with; the map
compiler requests `VariableScope::global` for port variables. -/
inductive VariableScope where
  | global
  | localScope
deriving DecidableEq, Repr

/-- Modelled from the spec: `PortTypeToVariableType` (CompilableNodeUtilities)
is not under src; it translates a port's scalar type to the matching emitter
variable type, so that a port variable is "sized/typed to match the port". -/
def PortTypeToVariableType : PortType → VariableType
  | .real => .vtDouble
  | .integer => .vtInt
  | .boolean => .vtByte

/-- Embeds `model::OutputPortBase`: identity (by reference, modelled as an id), the
element count `Size()` and the scalar type `GetType()`, both fixed after graph
construction. -/
structure OutputPort where
  id : Nat
  size : Nat
  type : PortType
deriving DecidableEq, Repr

/-- Embeds `emitters::Variable`: symbolic backend storage.  Identity (the C++
`Variable*`) is modelled as a fresh id; the record also carries the scope,
scalar type, element count and the optional initial value the variable was
created with. -/
structure Variable where
  id : Nat
  scope : VariableScope
  varType : VariableType
  size : Nat
  initial : Option Int
deriving DecidableEq, Repr

/-- One scope frame of `_portToVarMaps` (MapCompiler.h line 129): a mapping
from ports (by id) to their bound variables; modelled as an association list
with the most recent binding first. -/
abbrev Frame := List (Nat × Variable)

/-- The compiler-owned state the claims inspect: the stack of scope frames
(`_portToVarMaps`, head = innermost, MapCompiler.h lines 126-129), and the
backend's variable bookkeeping (the fresh-id counter, the variables created by
`AddVectorVariable`, and the ids registered by `AllocateVariable`). -/
structure CompilerState where
  frames : List Frame
  nextVarId : Nat
  created : List Variable
  allocatedIds : List Nat
deriving DecidableEq, Repr

/-- The fault kinds of spec section 7. -/
inductive Fault where
  | malformedPort
  | duplicateBinding
  | unbalancedScope
  | configurationFault
deriving DecidableEq, Repr

/-- Search one list of frames for a binding of `portId`, innermost first. -/
def lookupFrames (portId : Nat) : List Frame → Option Variable
  | [] => none
  | f :: rest =>
    match f.find? (fun b => b.1 = portId) with
    | some b => some b.2
    | none => lookupFrames portId rest

/-- Modelled from the spec: the body of `MapCompiler::GetVariableForPort` is
not under src (only its declaration, MapCompiler.h line 74, and the comment on
`_portToVarMaps`); the spec says it returns the bound variable, searching all
open frames from innermost to outermost, or a not-found signal, with no side
effect. -/
def GetVariableForPort (st : CompilerState) (port : OutputPort) : Option Variable :=
  lookupFrames port.id st.frames

/-- Modelled from the spec: the body of `MapCompiler::SetVariableForPort` is
not under src (only its declaration, MapCompiler.h line 77); the spec says it
binds the variable in the current (topmost) frame, and that overwriting an
existing binding for the same port in the same frame signals a
duplicate-binding fault.  Binding with no open frame is an unbalanced-scope
use of the stack. -/
def SetVariableForPort (st : CompilerState) (port : OutputPort) (v : Variable) :
    Except Fault CompilerState :=
  match st.frames with
  | [] => .error .unbalancedScope
  | f :: rest =>
    if (f.find? (fun b => b.1 = port.id)).isSome then .error .duplicateBinding
    else .ok { st with frames := ((port.id, v) :: f) :: rest }

/-- Modelled from the spec: the body of `MapCompiler::PushScope` is not under
src (only its declaration, MapCompiler.h line 109); it opens a fresh innermost
frame. -/
def PushScope (st : CompilerState) : CompilerState :=
  { st with frames := [] :: st.frames }

/-- Modelled from the spec: the body of `MapCompiler::PopScope` is not under
src (only its declaration, MapCompiler.h line 110); it closes the innermost
frame, and a pop with no matching push is an unbalanced-scope fault. -/
def PopScope (st : CompilerState) : Except Fault CompilerState :=
  match st.frames with
  | [] => .error .unbalancedScope
  | _ :: rest => .ok { st with frames := rest }

/-- Embeds `emitters::VariableAllocator::AddVectorVariable(scope, type, size)`
(external backend, spec section 6): create a fresh vector variable of the
given scope, scalar type and element count, with no initial value. -/
def AddVectorVariable (st : CompilerState) (scope : VariableScope)
    (varType : VariableType) (size : Nat) : Variable × CompilerState :=
  let v : Variable := ⟨st.nextVarId, scope, varType, size, none⟩
  (v, { st with nextVarId := st.nextVarId + 1, created := st.created ++ [v] })

/-- Embeds `emitters::VariableAllocator::AddVectorVariable<ValueType>(scope, size,
initialValue)` (external backend, spec section 6): create a fresh vector
variable seeded with `initialValue`; its scalar type comes from the template
parameter `ValueType`, passed here as `valueVarType`. -/
def AddVectorVariableInit (st : CompilerState) (scope : VariableScope)
    (size : Nat) (valueVarType : VariableType) (initialValue : Int) :
    Variable × CompilerState :=
  let v : Variable := ⟨st.nextVarId, scope, valueVarType, size, some initialValue⟩
  (v, { st with nextVarId := st.nextVarId + 1, created := st.created ++ [v] })

/-- Embeds `emitters::ModuleEmitter::AllocateVariable` (external backend, spec
section 6): register that the variable must be allocated storage. -/
def AllocateVariable (st : CompilerState) (v : Variable) : CompilerState :=
  { st with allocatedIds := st.allocatedIds ++ [v.id] }

/-- Embeds `MapCompiler::AllocatePortVariable(port, initialValue)` (template,
MapCompiler.h lines 140-160): assert the port is non-empty (modelled as the
malformed-port fault), create the backend variable — untyped-by-value and
unseeded when `initialValue == 0`, seeded through the `ValueType` overload
otherwise — then register it for allocation and bind it to the port.
`valueVarType` stands for the variable type of the template parameter
`ValueType`. -/
def AllocatePortVariable (valueVarType : VariableType) (port : OutputPort)
    (initialValue : Int) (st : CompilerState) :
    Except Fault (Variable × CompilerState) :=
  if port.size = 0 then .error .malformedPort
  else
    let varType := PortTypeToVariableType port.type
    let pair :=
      if initialValue = 0 then
        AddVectorVariable st .global varType port.size
      else
        AddVectorVariableInit st .global port.size valueVarType initialValue
    let st2 := AllocateVariable pair.2 pair.1
    (SetVariableForPort st2 port pair.1).map (fun st3 => (pair.1, st3))

/-- Modelled from the spec: the body of the overload
`MapCompiler::AllocatePortVariable(port)` without an initial value is not
under src (only its declaration, MapCompiler.h line 89); the spec says it
requests a variable from the backend sized/typed to match the port, binds it
via `SetVariableForPort` and returns it, failing on a zero-element port with
the malformed-port fault. -/
def AllocatePortVariableNoInit (port : OutputPort) (st : CompilerState) :
    Except Fault (Variable × CompilerState) :=
  if port.size = 0 then .error .malformedPort
  else
    let varType := PortTypeToVariableType port.type
    let pair := AddVectorVariable st .global varType port.size
    let st2 := AllocateVariable pair.2 pair.1
    (SetVariableForPort st2 port pair.1).map (fun st3 => (pair.1, st3))

/-- Embeds `MapCompiler::GetOrAllocatePortVariable(port, initialValue)` (template,
MapCompiler.h lines 162-172): return the existing binding when the stack has
one, else allocate.  Note that line 168 calls the overload
`AllocatePortVariable(port)` without the initial value, so both
`valueVarType` and `initialValue` are unused, exactly as in the source. -/
def GetOrAllocatePortVariable (valueVarType : VariableType) (port : OutputPort)
    (initialValue : Int) (st : CompilerState) :
    Except Fault (Variable × CompilerState) :=
  match GetVariableForPort st port with
  | some pVar => .ok (pVar, st)
  | none => AllocatePortVariableNoInit port st

/-- A node of the graph (`model::Node`): its identity and the output ports its
lowering logic requests variables for through `GetOrAllocatePortVariable`
(spec section 4.3 step 4c; per-node codegen is an external collaborator, so
only its variable requests are modelled). -/
structure NodeSpec where
  id : Nat
  requests : List OutputPort
deriving DecidableEq, Repr

/-- The graph (`model::Model`), enumerated in its own stable
dependency-respecting order (spec sections 4.3 step 3 and 6), which the
compiler treats as authoritative. -/
structure ModelGraph where
  nodes : List NodeSpec
deriving DecidableEq, Repr

/-- Embeds `model::Map`: the declared input and output port bindings and the
underlying graph. -/
structure MapSpec where
  inputs : List OutputPort
  outputs : List OutputPort
  graph : ModelGraph
deriving DecidableEq, Repr

/-- A concrete backend policy: the answer its `TryMergeNodeRegion` override
gives for each node (spec section 4.2, a pure policy decision). -/
structure Backend where
  tryMerge : Nat → Bool

/-- The observable events of one `CompileMap` run: the extension hooks around
each node, the region operations, function-argument allocation, and the final
function finalization. -/
inductive Event where
  | beginNode (id : Nat)
  | endNode (id : Nat)
  | newRegion (id : Nat)
  | mergeRegion (id : Nat) (merged : Bool)
  | allocArg (portId : Nat)
  | finalize
deriving DecidableEq, Repr

/-- The outcome of a `CompileMap` run: the final compiler state, the event
log, the node-visitation sequence, and the fault that aborted the run (`none`
on success). -/
structure CompileResult where
  state : CompilerState
  events : List Event
  visits : List Nat
  fault : Option Fault
deriving Repr

/-- The state a fresh `MapCompiler` starts a compilation with: one open
function-level frame, and an empty backend variable table. -/
def initialState : CompilerState := ⟨[[]], 0, [], []⟩

/-- A node's lowering requests, folded through `GetOrAllocatePortVariable`
(spec section 4.3 step 4c); the first fault aborts. -/
def lowerRequests : List OutputPort → CompilerState → Except Fault CompilerState
  | [], st => .ok st
  | p :: rest, st =>
    match GetOrAllocatePortVariable .vtDouble p 0 st with
    | .ok pair => lowerRequests rest pair.2
    | .error e => .error e

/-- Modelled from the spec: the body of `MapCompiler::CompileNodes` and the
per-node step are not under src (only declarations, MapCompiler.h lines
105-122); spec section 4.3 step 4: invoke `OnBeginCompileNode`, call
`NewNodeRegion` then `TryMergeNodeRegion`, delegate to the node's lowering,
invoke `OnEndCompileNode`. -/
def CompileNode (backend : Backend) (node : NodeSpec) (st : CompilerState) :
    List Event × Except Fault CompilerState :=
  let evs := [Event.beginNode node.id, Event.newRegion node.id,
              Event.mergeRegion node.id (backend.tryMerge node.id)]
  match lowerRequests node.requests st with
  | .ok st2 => (evs ++ [Event.endNode node.id], .ok st2)
  | .error e => (evs, .error e)

/-- Modelled from the spec: traverse the graph's nodes in their stable
enumeration order (spec section 4.3 step 3), compiling each in turn; any fault
raised while compiling a single node aborts the whole traversal. -/
def CompileNodesAux (backend : Backend) :
    List NodeSpec → CompilerState → CompileResult
  | [], st => ⟨st, [], [], none⟩
  | n :: rest, st =>
    let step := CompileNode backend n st
    match step.2 with
    | .error e => ⟨st, step.1, [n.id], some e⟩
    | .ok st2 =>
      let tr := CompileNodesAux backend rest st2
      ⟨tr.state, step.1 ++ tr.events, n.id :: tr.visits, tr.fault⟩

/-- Modelled from the spec: `MapCompiler::AllocateMapFunctionArguments` and
`AllocatePortFunctionArgument` are not under src (only declarations,
MapCompiler.h lines 100 and 123-124); spec section 4.3 step 2: allocate a
function-argument variable for every declared port, binding each via the
registry, once per compiled map before any node is visited. -/
def allocateArguments : List OutputPort → CompilerState →
    List Event × Except Fault CompilerState
  | [], st => ([], .ok st)
  | p :: rest, st =>
    let pair := AddVectorVariable st .global (PortTypeToVariableType p.type) p.size
    let st2 := AllocateVariable pair.2 pair.1
    match SetVariableForPort st2 p pair.1 with
    | .error e => ([Event.allocArg p.id], .error e)
    | .ok st3 =>
      let tail := allocateArguments rest st3
      (Event.allocArg p.id :: tail.1, tail.2)

/-- Modelled from the spec: the body of `MapCompiler::CompileMap` is not under
src (only its declaration, MapCompiler.h line 44); spec section 4.3: validate
that the map declares at least one input and one output port binding (failing
with a configuration fault before any node is visited), allocate the
function-argument variables, traverse the nodes, then finalize the function in
the backend; any fault aborts the whole call and no function is finalized. -/
def CompileMap (backend : Backend) (map : MapSpec) (functionName : String) :
    CompileResult :=
  if map.inputs.isEmpty || map.outputs.isEmpty then
    ⟨initialState, [], [], some .configurationFault⟩
  else
    let args := allocateArguments (map.inputs ++ map.outputs) initialState
    match args.2 with
    | .error e => ⟨initialState, args.1, [], some e⟩
    | .ok st1 =>
      let tr := CompileNodesAux backend map.graph.nodes st1
      match tr.fault with
      | some e => ⟨tr.state, args.1 ++ tr.events, tr.visits, some e⟩
      | none => ⟨tr.state, args.1 ++ tr.events ++ [Event.finalize], tr.visits, none⟩

/-- The count of variables the backend was asked to allocate during a run. -/
def allocatedCount (r : CompileResult) : Nat := r.state.allocatedIds.length

end Model

/-! Concrete inputs used by the witnesses. -/

/-- A concrete two-element integer output port. -/
def wPort : Model.OutputPort := ⟨3, 2, .integer⟩

/-- The variable the registry allocates for `wPort` from the initial state. -/
def wVar : Model.Variable := ⟨0, .global, .vtInt, 2, none⟩

/-- A second distinct variable, used to exercise shadowing. -/
def wVar2 : Model.Variable := ⟨7, .global, .vtDouble, 2, none⟩

/-- The compiler state after allocating `wVar` for `wPort` from the initial
state. -/
def wState : Model.CompilerState := ⟨[[(3, wVar)]], 1, [wVar], [0]⟩

/-- A backend whose merge policy always declines. -/
def wBackend : Model.Backend := ⟨fun _ => false⟩

/-- An empty function name for `CompileMap` runs. -/
def emptyName : String := ""

/-- A concrete one-element input port and output port for maps. -/
def wIn : Model.OutputPort := ⟨0, 1, .real⟩

/-- The declared output port of the concrete maps. -/
def wOut : Model.OutputPort := ⟨1, 1, .real⟩

/-- A zero-element port, used to trigger the malformed-port fault. -/
def wZero : Model.OutputPort := ⟨2, 0, .real⟩

/-- A well-formed two-node map whose compilation succeeds. -/
def wGoodMap : Model.MapSpec :=
  ⟨[wIn], [wOut], ⟨[⟨10, [wPort]⟩, ⟨11, [wPort, wOut]⟩]⟩⟩

/-- A map whose first node requests a variable for a zero-element port. -/
def wBadMap : Model.MapSpec := ⟨[wIn], [wOut], ⟨[⟨10, [wZero]⟩, ⟨11, []⟩]⟩⟩

/-- A map that declares no input port binding. -/
def wEmptyMap : Model.MapSpec := ⟨[], [wOut], ⟨[]⟩⟩

/-! Helper lemmas shared by the claim theorems. -/

/-- Appending one index on the right takes the running maximum with it. -/
theorem listMax_append (l : List Nat) (a : Nat) :
    Data.listMax (l ++ [a]) = max (Data.listMax l) a := by
  simp [Data.listMax, List.foldl_append]

/-- An `Except.map` that produced a success did so from a success. -/
theorem except_map_eq_ok {α β ε : Type} (f : α → β) (e : Except ε α) (b : β)
    (h : Except.map f e = .ok b) : ∃ a, e = .ok a ∧ f a = b := by
  cases e with
  | error err => simp [Except.map] at h
  | ok a =>
    refine ⟨a, rfl, ?_⟩
    simpa [Except.map] using h

/-- A successful `SetVariableForPort` makes the port's innermost binding the
given variable and touches nothing but the frame stack. -/
theorem setVariableForPort_ok (st st2 : Model.CompilerState)
    (p : Model.OutputPort) (v : Model.Variable)
    (h : Model.SetVariableForPort st p v = .ok st2) :
    Model.GetVariableForPort st2 p = some v ∧
    st2.nextVarId = st.nextVarId ∧ st2.created = st.created ∧
    st2.allocatedIds = st.allocatedIds := by
  obtain ⟨frames, nv, cr, al⟩ := st
  rcases frames with _ | ⟨f, rest⟩
  · simp [Model.SetVariableForPort] at h
  · rw [Model.SetVariableForPort] at h
    dsimp only at h
    by_cases hdup : (f.find? (fun b => b.1 = p.id)).isSome = true
    · rw [if_pos hdup] at h
      exact absurd h (by simp)
    · rw [if_neg hdup] at h
      cases h
      refine ⟨?_, rfl, rfl, rfl⟩
      simp [Model.GetVariableForPort, Model.lookupFrames, List.find?]

/-- A successful `AllocatePortVariableNoInit` returns the fresh unseeded
variable shaped after the port, leaves it bound as the innermost binding, and
records it in the backend's created and allocated tables. -/
theorem allocPortVariableNoInit_ok (p : Model.OutputPort)
    (st : Model.CompilerState) (v : Model.Variable) (st2 : Model.CompilerState)
    (h : Model.AllocatePortVariableNoInit p st = .ok (v, st2)) :
    v = ⟨st.nextVarId, .global, Model.PortTypeToVariableType p.type, p.size,
      none⟩ ∧
    Model.GetVariableForPort st2 p = some v ∧
    st2.created = st.created ++ [v] ∧
    st2.allocatedIds = st.allocatedIds ++ [v.id] ∧
    p.size ≠ 0 := by
  by_cases hsz : p.size = 0
  · simp [Model.AllocatePortVariableNoInit, hsz] at h
  · simp only [Model.AllocatePortVariableNoInit, if_neg hsz,
      Model.AddVectorVariable, Model.AllocateVariable] at h
    obtain ⟨st3, hset, hpair⟩ := except_map_eq_ok _ _ _ h
    simp only [Prod.mk.injEq] at hpair
    obtain ⟨hv, hst2⟩ := hpair
    subst hst2
    subst hv
    obtain ⟨hlook, hnv, hcr, hal⟩ := setVariableForPort_ok _ _ _ _ hset
    refine ⟨rfl, hlook, ?_, ?_, hsz⟩
    · rw [hcr]
    · rw [hal]

/-! Claim theorems. -/

/-- C8: `SparseDataVector::AppendElement(index, value)` is a no-op when the
value is `0` (index and value lists unchanged); when the vector is non-empty
and the index is at most the largest stored index it throws an input
exception, returning an error without any modified vector (atomicity on
error); otherwise it appends the index to the index list and the converted
value to the value list. -/
theorem claim_C8_appendElement_cases (v : Data.SparseDataVector) (idx : Nat)
    (val : Int) :
    (val = 0 → Data.AppendElement v idx val = .ok v) ∧
    (val ≠ 0 → 0 < v.indexList.length → idx ≤ Data.listMax v.indexList →
      Data.AppendElement v idx val = .error .indexOutOfRange) ∧
    (val ≠ 0 → (v.indexList.length = 0 ∨ Data.listMax v.indexList < idx) →
      Data.AppendElement v idx val =
        .ok ⟨v.indexList ++ [idx], v.values ++ [val]⟩) := by
  refine ⟨fun h0 => by simp [Data.AppendElement, h0], fun h0 h1 h2 => ?_,
    fun h0 hc => ?_⟩
  · simp [Data.AppendElement, h0, h1, h2]
  · have hnot : ¬(0 < v.indexList.length ∧ idx ≤ Data.listMax v.indexList) := by
      rcases hc with h | h
      · intro hand
        omega
      · intro hand
        omega
    simp [Data.AppendElement, h0, hnot]

/-- C8 witness: the three cases of `AppendElement` at a concrete one-element
vector. -/
theorem claim_C8_witness :
    Data.AppendElement ⟨[1], [5]⟩ 2 0 = .ok ⟨[1], [5]⟩ ∧
    Data.AppendElement ⟨[1], [5]⟩ 1 7 = .error .indexOutOfRange ∧
    Data.AppendElement ⟨[1], [5]⟩ 2 7 = .ok ⟨[1, 2], [5, 7]⟩ :=
  ⟨(claim_C8_appendElement_cases ⟨[1], [5]⟩ 2 0).1 rfl,
   (claim_C8_appendElement_cases ⟨[1], [5]⟩ 1 7).2.1 (by decide) (by decide)
     (by decide),
   (claim_C8_appendElement_cases ⟨[1], [5]⟩ 2 7).2.2 (by decide)
     (Or.inr (by decide))⟩

/-- C9: `SparseDataVector::PrefixLength` returns `0` when no element has been
stored, and one plus the largest stored index otherwise; a successful
`AppendElement` of a nonzero value at index `i` makes the prefix length
`i + 1`. -/
theorem claim_C9_prefixLength (v v2 : Data.SparseDataVector) (idx : Nat)
    (val : Int) :
    (v.indexList.length = 0 → Data.PrefixLength v = 0) ∧
    (v.indexList.length ≠ 0 →
      Data.PrefixLength v = Data.listMax v.indexList + 1) ∧
    (val ≠ 0 → Data.AppendElement v idx val = .ok v2 →
      Data.PrefixLength v2 = idx + 1) := by
  refine ⟨fun h0 => by simp [Data.PrefixLength, h0],
    fun h0 => by simp [Data.PrefixLength, h0], fun h0 happ => ?_⟩
  rw [Data.AppendElement] at happ
  rw [if_neg h0] at happ
  by_cases hc : 0 < v.indexList.length ∧ idx ≤ Data.listMax v.indexList
  · rw [if_pos hc] at happ
    exact absurd happ (by simp)
  · rw [if_neg hc] at happ
    have hv2 : v2 = ⟨v.indexList ++ [idx], v.values ++ [val]⟩ := by
      cases happ
      rfl
    subst hv2
    have hmax : Data.listMax (v.indexList ++ [idx]) = idx := by
      rw [listMax_append]
      rcases Nat.eq_zero_or_pos v.indexList.length with hz | hp
      · have : v.indexList = [] := List.length_eq_zero.mp hz
        simp [this, Data.listMax]
      · have : Data.listMax v.indexList < idx := by
          rcases Decidable.not_and_iff_or_not.mp hc with h | h
        <;> omega
        omega
    simp [Data.PrefixLength, hmax]

/-- C9 witness: prefix lengths of concrete vectors, and the effect of one
successful nonzero append. -/
theorem claim_C9_witness :
    Data.PrefixLength ⟨[], []⟩ = 0 ∧
    Data.PrefixLength ⟨[1, 3], [5, 7]⟩ = Data.listMax [1, 3] + 1 ∧
    Data.PrefixLength ⟨[1, 3, 6], [5, 7, 9]⟩ = 6 + 1 :=
  ⟨(claim_C9_prefixLength ⟨[], []⟩ ⟨[], []⟩ 0 0).1 rfl,
   (claim_C9_prefixLength ⟨[1, 3], [5, 7]⟩ ⟨[1, 3], [5, 7]⟩ 0 0).2.1 (by decide),
   (claim_C9_prefixLength ⟨[1, 3], [5, 7]⟩ ⟨[1, 3, 6], [5, 7, 9]⟩ 6 9).2.2
     (by decide) rfl⟩

/-- C3: the source template `AllocatePortVariable` (MapCompiler.h lines
146-156) treats a zero initial value exactly like the no-initial-value
overload (same backend request without a seed, same binding, same fault
behavior — the two cases are indistinguishable), while any nonzero initial
value seeds the created variable with that value. -/
theorem claim_C3_zero_initial_is_no_initial (vt : Model.VariableType)
    (p : Model.OutputPort) (iv : Int) (st : Model.CompilerState) :
    Model.AllocatePortVariable vt p 0 st = Model.AllocatePortVariableNoInit p st ∧
    (iv ≠ 0 → ∀ v st2,
      Model.AllocatePortVariable vt p iv st = .ok (v, st2) →
      v.initial = some iv) := by
  constructor
  · rfl
  · intro hiv v st2 h
    rw [Model.AllocatePortVariable] at h
    by_cases hsz : p.size = 0
    · rw [if_pos hsz] at h
      exact absurd h (by simp)
    · rw [if_neg hsz] at h
      simp only [if_neg hiv] at h
      cases hset : Model.SetVariableForPort
          (Model.AllocateVariable
            (Model.AddVectorVariableInit st .global p.size vt iv).2
            (Model.AddVectorVariableInit st .global p.size vt iv).1)
          p (Model.AddVectorVariableInit st .global p.size vt iv).1 with
      | error e =>
        rw [hset] at h
        exact absurd h (by simp [Except.map])
      | ok st3 =>
        rw [hset] at h
        simp [Except.map] at h
        rw [← h.1]
        rfl

/-- C3 witness: at a concrete port and state, allocating with initial value
`0` coincides with the no-initial-value overload, and allocating with `5`
seeds the variable with `5`. -/
theorem claim_C3_witness :
    Model.AllocatePortVariable .vtInt ⟨3, 2, .integer⟩ 0 Model.initialState =
      Model.AllocatePortVariableNoInit ⟨3, 2, .integer⟩ Model.initialState ∧
    ((5 : Int) ≠ 0 ∧
      (⟨0, .global, .vtInt, 2, some 5⟩ : Model.Variable).initial = some 5) :=
  ⟨(claim_C3_zero_initial_is_no_initial .vtInt ⟨3, 2, .integer⟩ 5
      Model.initialState).1,
   by decide,
   (claim_C3_zero_initial_is_no_initial .vtInt ⟨3, 2, .integer⟩ 5
      Model.initialState).2 (by decide) ⟨0, .global, .vtInt, 2, some 5⟩
      ⟨[[(3, ⟨0, .global, .vtInt, 2, some 5⟩)]], 1,
        [⟨0, .global, .vtInt, 2, some 5⟩], [0]⟩ rfl⟩

/-- C2 counterexample: with no existing binding and the nonzero initial value
`5`, the source `GetOrAllocatePortVariable` (MapCompiler.h line 168 calls the
`AllocatePortVariable(port)` overload without the initial value) returns a
variable whose initial value is absent, not `5`, so the allocation is not "as
`AllocatePortVariable(port, initialValue)` describes". -/
theorem claim_C2_counterexample :
    (5 : Int) ≠ 0 ∧
    Model.GetVariableForPort Model.initialState wPort = none ∧
    (Model.GetOrAllocatePortVariable .vtInt wPort 5 Model.initialState).map
      (fun pair => pair.1.initial) = .ok none :=
  ⟨by decide, rfl, rfl⟩

/-- C2 (amended): for every output port with no existing binding anywhere in
the scope stack, `GetOrAllocatePortVariable(p, initialValue)` allocates in the
current frame exactly as the no-initial-value `AllocatePortVariable(port)`
does — the variable is requested from the backend sized and typed to match
the port and is bound as the innermost binding — but the `initialValue`
argument is ignored and the variable is never seeded. -/
theorem claim_C2_allocation_unseeded (vt : Model.VariableType)
    (p : Model.OutputPort) (iv : Int) (st : Model.CompilerState)
    (h : Model.GetVariableForPort st p = none) :
    Model.GetOrAllocatePortVariable vt p iv st =
      Model.AllocatePortVariableNoInit p st ∧
    (∀ v st2, Model.AllocatePortVariableNoInit p st = .ok (v, st2) →
      v.size = p.size ∧ v.varType = Model.PortTypeToVariableType p.type ∧
      v.initial = none ∧ Model.GetVariableForPort st2 p = some v) := by
  constructor
  · simp only [Model.GetOrAllocatePortVariable, h]
  · intro v st2 halloc
    obtain ⟨hv, hlook, hcr, hal, hsz⟩ := allocPortVariableNoInit_ok _ _ _ _ halloc
    subst hv
    exact ⟨rfl, rfl, rfl, hlook⟩

/-- C2 witness: the amended claim at a concrete unbound port, initial value
`5` and the initial state. -/
theorem claim_C2_witness :
    Model.GetOrAllocatePortVariable .vtInt wPort 5 Model.initialState =
      Model.AllocatePortVariableNoInit wPort Model.initialState ∧
    wVar.size = wPort.size ∧
    wVar.varType = Model.PortTypeToVariableType wPort.type ∧
    wVar.initial = none ∧
    Model.GetVariableForPort wState wPort = some wVar :=
  ⟨(claim_C2_allocation_unseeded .vtInt wPort 5 Model.initialState rfl).1,
   (claim_C2_allocation_unseeded .vtInt wPort 5 Model.initialState rfl).2
     wVar wState rfl⟩

/-- C1: a call of `GetOrAllocatePortVariable` that returns variable `v` leaves
`v` bound as the visible binding for the port, so a second call at the same
depth returns the identical variable and leaves the state untouched (no new
variable is created); and when the port had no binding anywhere in the stack,
the first call is the one that allocated and bound `v`. -/
theorem claim_C1_getOrAllocate_idempotent (vt : Model.VariableType)
    (p : Model.OutputPort) (iv : Int) (st st2 : Model.CompilerState)
    (v : Model.Variable)
    (h : Model.GetOrAllocatePortVariable vt p iv st = .ok (v, st2)) :
    Model.GetVariableForPort st2 p = some v ∧
    Model.GetOrAllocatePortVariable vt p iv st2 = .ok (v, st2) ∧
    (Model.GetVariableForPort st p = none →
      st2.created = st.created ++ [v]) := by
  have hlook : Model.GetVariableForPort st2 p = some v ∧
      (Model.GetVariableForPort st p = none →
        st2.created = st.created ++ [v]) := by
    rw [Model.GetOrAllocatePortVariable] at h
    cases hget : Model.GetVariableForPort st p with
    | some pVar =>
      rw [hget] at h
      cases h
      exact ⟨hget, fun hc => absurd hc (by simp)⟩
    | none =>
      rw [hget] at h
      dsimp only at h
      obtain ⟨hv, hbound, hcr, hal, hsz⟩ := allocPortVariableNoInit_ok _ _ _ _ h
      exact ⟨hbound, fun _ => hcr⟩
  refine ⟨hlook.1, ?_, hlook.2⟩
  rw [Model.GetOrAllocatePortVariable, hlook.1]

/-- C1 witness: allocating for a concrete unbound port from the initial state
and calling again returns the identical variable with the state unchanged. -/
theorem claim_C1_witness :
    Model.GetVariableForPort wState wPort = some wVar ∧
    Model.GetOrAllocatePortVariable .vtInt wPort 0 wState = .ok (wVar, wState) ∧
    wState.created = Model.initialState.created ++ [wVar] :=
  ⟨(claim_C1_getOrAllocate_idempotent .vtInt wPort 0 Model.initialState wState
      wVar rfl).1,
   (claim_C1_getOrAllocate_idempotent .vtInt wPort 0 Model.initialState wState
      wVar rfl).2.1,
   (claim_C1_getOrAllocate_idempotent .vtInt wPort 0 Model.initialState wState
      wVar rfl).2.2 rfl⟩

/-- C5: `GetVariableForPort` returns the innermost frame's binding when that
frame has one (innermost-to-outermost search priority); it returns the
not-found signal exactly when no open frame binds the port; and binding a port
in a freshly pushed frame makes the lookup return that inner binding while
popping the frame restores the previous state exactly, so lookups revert to
the outer binding or to not-found.  The function itself is pure (it returns an
`Option` and takes the state unchanged). -/
theorem claim_C5_lookup_and_shadowing (st : Model.CompilerState)
    (p : Model.OutputPort) (v : Model.Variable) :
    (∀ f rest b, st.frames = f :: rest →
      f.find? (fun x => x.1 = p.id) = some b →
      Model.GetVariableForPort st p = some b.2) ∧
    (Model.GetVariableForPort st p = none ↔
      ∀ f ∈ st.frames, f.find? (fun x => x.1 = p.id) = none) ∧
    (∃ st2, Model.SetVariableForPort (Model.PushScope st) p v = .ok st2 ∧
      Model.GetVariableForPort st2 p = some v ∧
      Model.PopScope st2 = .ok st) := by
  refine ⟨?_, ?_, ?_⟩
  · intro f rest b hfr hfind
    simp [Model.GetVariableForPort, Model.lookupFrames, hfr, hfind]
  · rw [Model.GetVariableForPort]
    induction st.frames with
    | nil =>
      constructor
      · intro _ f hf
        exact absurd hf (List.not_mem_nil f)
      · intro _
        rfl
    | cons f rest ih =>
      rw [Model.lookupFrames]
      cases hfind : f.find? (fun x => x.1 = p.id) with
      | some b =>
        constructor
        · intro hc
          exact absurd hc (by simp)
        · intro hall
          have hf := hall f (List.mem_cons_self f rest)
          rw [hf] at hfind
          exact absurd hfind (by simp)
      | none =>
        constructor
        · intro hnone g hg
          rcases List.mem_cons.mp hg with hgf | hg2
          · rw [hgf]
            exact hfind
          · exact ih.mp hnone g hg2
        · intro hall
          exact ih.mpr (fun g hg => hall g (List.mem_cons_of_mem f hg))
  · refine ⟨{ st with frames := [(p.id, v)] :: st.frames }, ?_, ?_, ?_⟩
    · simp [Model.SetVariableForPort, Model.PushScope, List.find?]
    · simp [Model.GetVariableForPort, Model.lookupFrames, List.find?]
    · rw [Model.PopScope]

/-- C5 witness: with the port bound to `wVar` in the only open frame, lookup
returns it; binding `wVar2` in a pushed frame shadows it, and popping that
frame restores the state, reverting lookups to the outer binding. -/
theorem claim_C5_witness :
    Model.GetVariableForPort wState wPort = some wVar ∧
    Model.SetVariableForPort (Model.PushScope wState) wPort wVar2 =
      .ok ⟨[[(3, wVar2)], [(3, wVar)]], 1, [wVar], [0]⟩ ∧
    Model.GetVariableForPort ⟨[[(3, wVar2)], [(3, wVar)]], 1, [wVar], [0]⟩
      wPort = some wVar2 ∧
    Model.PopScope ⟨[[(3, wVar2)], [(3, wVar)]], 1, [wVar], [0]⟩ = .ok wState :=
  ⟨(claim_C5_lookup_and_shadowing wState wPort wVar2).1 [(3, wVar)] [] (3, wVar)
      rfl rfl,
   rfl, rfl, rfl⟩

/-- The argument-allocation step only logs `allocArg` events. -/
theorem finalize_not_mem_allocateArguments (l : List Model.OutputPort)
    (st : Model.CompilerState) :
    Model.Event.finalize ∉ (Model.allocateArguments l st).1 := by
  induction l generalizing st with
  | nil => simp [Model.allocateArguments]
  | cons p rest ih =>
    rw [Model.allocateArguments]
    dsimp only
    cases hset : Model.SetVariableForPort
        (Model.AllocateVariable
          (Model.AddVectorVariable st .global (Model.PortTypeToVariableType p.type)
            p.size).2
          (Model.AddVectorVariable st .global (Model.PortTypeToVariableType p.type)
            p.size).1)
        p
        (Model.AddVectorVariable st .global (Model.PortTypeToVariableType p.type)
          p.size).1 with
    | error e => simp
    | ok st3 =>
      simp only [List.mem_cons, not_or]
      exact ⟨by simp, ih st3⟩

/-- One node's compilation step only logs hook and region events. -/
theorem finalize_not_mem_compileNode (b : Model.Backend) (n : Model.NodeSpec)
    (st : Model.CompilerState) :
    Model.Event.finalize ∉ (Model.CompileNode b n st).1 := by
  rw [Model.CompileNode]
  cases hreq : Model.lowerRequests n.requests st with
  | ok st2 => simp
  | error e => simp

/-- The node traversal never logs a `finalize` event. -/
theorem finalize_not_mem_compileNodesAux (b : Model.Backend)
    (l : List Model.NodeSpec) (st : Model.CompilerState) :
    Model.Event.finalize ∉ (Model.CompileNodesAux b l st).events := by
  induction l generalizing st with
  | nil => simp [Model.CompileNodesAux]
  | cons n rest ih =>
    rw [Model.CompileNodesAux]
    dsimp only
    cases hstep : (Model.CompileNode b n st).2 with
    | error e =>
      exact finalize_not_mem_compileNode b n st
    | ok st2 =>
      dsimp only
      intro hmem
      rcases List.mem_append.mp hmem with hm | hm
      · exact finalize_not_mem_compileNode b n st hm
      · exact ih st2 hm

/-- On success the node traversal visits exactly the graph's nodes in their
stable enumeration order. -/
theorem compileNodesAux_visits_of_ok (b : Model.Backend)
    (l : List Model.NodeSpec) (st : Model.CompilerState)
    (h : (Model.CompileNodesAux b l st).fault = none) :
    (Model.CompileNodesAux b l st).visits = l.map Model.NodeSpec.id := by
  induction l generalizing st with
  | nil => simp [Model.CompileNodesAux]
  | cons n rest ih =>
    rw [Model.CompileNodesAux] at h ⊢
    dsimp only at h ⊢
    cases hstep : (Model.CompileNode b n st).2 with
    | error e =>
      rw [hstep] at h
      simp at h
    | ok st2 =>
      rw [hstep] at h
      dsimp only at h ⊢
      rw [List.map_cons, ih st2 h]

/-- An `Except.map` that produced an error got that error from its argument. -/
theorem except_map_eq_error {α β ε : Type} (f : α → β) (x : Except ε α) (e : ε)
    (h : Except.map f x = .error e) : x = .error e := by
  cases x with
  | error e2 => simpa [Except.map] using h
  | ok a => simp [Except.map] at h

/-- The only faults `SetVariableForPort` can signal are the unbalanced-scope
and duplicate-binding faults. -/
theorem setVariableForPort_error (st : Model.CompilerState)
    (p : Model.OutputPort) (v : Model.Variable) (e : Model.Fault)
    (h : Model.SetVariableForPort st p v = .error e) :
    e = .unbalancedScope ∨ e = .duplicateBinding := by
  obtain ⟨frames, nv, cr, al⟩ := st
  rcases frames with _ | ⟨f, rest⟩
  · rw [Model.SetVariableForPort] at h
    dsimp only at h
    cases h
    exact Or.inl rfl
  · rw [Model.SetVariableForPort] at h
    dsimp only at h
    by_cases hdup : (f.find? (fun b => b.1 = p.id)).isSome = true
    · rw [if_pos hdup] at h
      cases h
      exact Or.inr rfl
    · rw [if_neg hdup] at h
      exact absurd h (by simp)

/-- C4: requesting a variable for a zero-element output port raises the
malformed-port fault; for a port with a nonzero element count that fault is
never raised; and any fault aborts `CompileMap` without a `finalize` event
being logged, so no function is finalized. -/
theorem claim_C4_zero_size_port_fault :
    (∀ (vt : Model.VariableType) (p : Model.OutputPort) (iv : Int)
        (st : Model.CompilerState), p.size = 0 →
      Model.AllocatePortVariable vt p iv st = .error .malformedPort) ∧
    (∀ (vt : Model.VariableType) (p : Model.OutputPort) (iv : Int)
        (st : Model.CompilerState) (e : Model.Fault), p.size ≠ 0 →
      Model.AllocatePortVariable vt p iv st = .error e →
      e ≠ .malformedPort) ∧
    (∀ (b : Model.Backend) (m : Model.MapSpec) (fn : String),
      (Model.CompileMap b m fn).fault ≠ none →
      Model.Event.finalize ∉ (Model.CompileMap b m fn).events) := by
  refine ⟨fun vt p iv st h => by simp [Model.AllocatePortVariable, h],
    fun vt p iv st e hsz h => ?_, fun b m fn hfault => ?_⟩
  · simp only [Model.AllocatePortVariable, if_neg hsz] at h
    have hset := except_map_eq_error _ _ _ h
    rcases setVariableForPort_error _ _ _ _ hset with he | he <;> simp [he]
  · rw [Model.CompileMap] at hfault ⊢
    by_cases hempty : (m.inputs.isEmpty || m.outputs.isEmpty) = true
    · rw [if_pos hempty]
      simp
    · rw [if_neg hempty] at hfault ⊢
      dsimp only at hfault ⊢
      cases hargs : (Model.allocateArguments (m.inputs ++ m.outputs)
          Model.initialState).2 with
      | error e =>
        dsimp only
        exact finalize_not_mem_allocateArguments _ _
      | ok st1 =>
        rw [hargs] at hfault
        dsimp only at hfault ⊢
        cases htr : (Model.CompileNodesAux b m.graph.nodes st1).fault with
        | none =>
          rw [htr] at hfault
          dsimp only at hfault
          exact absurd rfl hfault
        | some e =>
          dsimp only
          intro hmem
          rcases List.mem_append.mp hmem with hm | hm
          · exact finalize_not_mem_allocateArguments _ _ hm
          · exact finalize_not_mem_compileNodesAux _ _ _ hm

/-- C4 witness: a zero-element port faults from the initial state; a nonzero
port that faults does so with a different fault; and the concrete map whose
node requests the zero-element port aborts with the malformed-port fault and
no `finalize` event. -/
theorem claim_C4_witness :
    Model.AllocatePortVariable .vtDouble wZero 0 Model.initialState =
      .error .malformedPort ∧
    (Model.Fault.duplicateBinding ≠ Model.Fault.malformedPort) ∧
    (Model.CompileMap wBackend wBadMap emptyName).fault =
      some .malformedPort ∧
    Model.Event.finalize ∉ (Model.CompileMap wBackend wBadMap emptyName).events :=
  ⟨claim_C4_zero_size_port_fault.1 .vtDouble wZero 0 Model.initialState rfl,
   claim_C4_zero_size_port_fault.2.1 .vtInt wPort 0 wState .duplicateBinding
     (by decide) rfl,
   rfl,
   claim_C4_zero_size_port_fault.2.2 wBackend wBadMap emptyName (by decide)⟩

/-- C6: compiling the same unmodified graph twice with the same backend is
deterministic — both runs produce the identical node-visitation sequence and
the identical count of allocated variables — and on success the visitation
sequence is exactly the graph's own stable node enumeration, fixed by the
dependency order and not by any compile-time data. -/
theorem claim_C6_deterministic_compilation (b1 b2 : Model.Backend)
    (m1 m2 : Model.MapSpec) (f1 f2 : String)
    (hb : b1 = b2) (hm : m1 = m2) (hf : f1 = f2) :
    (Model.CompileMap b1 m1 f1).visits = (Model.CompileMap b2 m2 f2).visits ∧
    Model.allocatedCount (Model.CompileMap b1 m1 f1) =
      Model.allocatedCount (Model.CompileMap b2 m2 f2) ∧
    ((Model.CompileMap b1 m1 f1).fault = none →
      (Model.CompileMap b1 m1 f1).visits =
        m1.graph.nodes.map Model.NodeSpec.id) := by
  subst hb
  subst hm
  subst hf
  refine ⟨rfl, rfl, fun hok => ?_⟩
  rw [Model.CompileMap] at hok ⊢
  by_cases hempty : (m1.inputs.isEmpty || m1.outputs.isEmpty) = true
  · rw [if_pos hempty] at hok
    dsimp only at hok
    exact absurd hok (by simp)
  · rw [if_neg hempty] at hok ⊢
    dsimp only at hok ⊢
    cases hargs : (Model.allocateArguments (m1.inputs ++ m1.outputs)
        Model.initialState).2 with
    | error e =>
      rw [hargs] at hok
      dsimp only at hok
      exact absurd hok (by simp)
    | ok st1 =>
      rw [hargs] at hok
      dsimp only at hok ⊢
      cases htr : (Model.CompileNodesAux b1 m1.graph.nodes st1).fault with
      | some e =>
        rw [htr] at hok
        dsimp only at hok
        exact absurd hok (by simp)
      | none =>
        dsimp only
        exact compileNodesAux_visits_of_ok b1 m1.graph.nodes st1 htr

/-- C6 witness: two runs of the concrete two-node map agree on visitation
order and allocation count, and the successful run visits `[10, 11]`, the
graph's enumeration order. -/
theorem claim_C6_witness :
    (Model.CompileMap wBackend wGoodMap emptyName).visits =
      (Model.CompileMap wBackend wGoodMap emptyName).visits ∧
    Model.allocatedCount (Model.CompileMap wBackend wGoodMap emptyName) =
      Model.allocatedCount (Model.CompileMap wBackend wGoodMap emptyName) ∧
    (Model.CompileMap wBackend wGoodMap emptyName).visits = [10, 11] :=
  ⟨(claim_C6_deterministic_compilation wBackend wBackend wGoodMap wGoodMap
      emptyName emptyName rfl rfl rfl).1,
   (claim_C6_deterministic_compilation wBackend wBackend wGoodMap wGoodMap
      emptyName emptyName rfl rfl rfl).2.1,
   (claim_C6_deterministic_compilation wBackend wBackend wGoodMap wGoodMap
      emptyName emptyName rfl rfl rfl).2.2 rfl⟩

/-- C7: `CompileMap` validates that the map declares at least one input and at
least one output port binding, and otherwise fails with the configuration
fault before anything happens: no event is logged (so no node hook runs and no
region is opened), no node is visited, and the compiler state is still the
initial one (no port variable allocated). -/
theorem claim_C7_configuration_fault (b : Model.Backend) (m : Model.MapSpec)
    (fn : String) (h : m.inputs = [] ∨ m.outputs = []) :
    Model.CompileMap b m fn =
      ⟨Model.initialState, [], [], some .configurationFault⟩ := by
  rw [Model.CompileMap]
  rcases h with h | h <;> simp [h]

/-- C7 witness: a concrete map with no declared input is rejected with the
configuration fault, with an empty event log and visit list and the untouched
initial state. -/
theorem claim_C7_witness :
    Model.CompileMap wBackend wEmptyMap emptyName =
      ⟨Model.initialState, [], [], some .configurationFault⟩ :=
  claim_C7_configuration_fault wBackend wEmptyMap emptyName (Or.inl rfl)

/-- An index strictly below every stored index holds no value. -/
theorem storedValueAt_eq_zero (inds : List Nat) (vals : List Int) (k : Nat)
    (h : ∀ j ∈ inds, k < j) : Data.storedValueAt inds vals k = 0 := by
  induction inds generalizing vals with
  | nil => rfl
  | cons i js ih =>
    cases vals with
    | nil => rfl
    | cons x xs =>
      have hik : ¬ i = k := by
        have := h i (List.mem_cons_self i js)
        omega
      rw [Data.storedValueAt, if_neg hik]
      exact ih xs (fun j hj => h j (List.mem_cons_of_mem i hj))

/-- The loop invariant of the `IterationPolicy::all` iterator: at cursor `k`
with `d = n - k` steps left, provided the remaining stored indices are
strictly increasing, aligned with the remaining values, not behind the
cursor, and consistent with `_iteratorIndex` (either the head index, or
saturated past `_size` together with the head), the iteration protocol yields
the stored-value-or-zero sequence for positions `k, ..., n - 1`. -/
theorem toListAux_range (d : Nat) :
    ∀ (inds : List Nat) (vals : List Int) (itIdx n k : Nat),
      d = n - k →
      List.Pairwise (· < ·) inds →
      inds.length = vals.length →
      (∀ i, inds.head? = some i → k ≤ i) →
      (∀ i, inds.head? = some i → itIdx = i ∨ (n ≤ itIdx ∧ n ≤ i)) →
      (inds = [] → n ≤ itIdx) →
      Data.AllIterator.toListAux d ⟨inds, vals, itIdx, n, k⟩ =
        (List.range' k d).map
          (fun i => ⟨i, Data.storedValueAt inds vals i⟩) := by
  induction d with
  | zero =>
    intro inds vals itIdx n k _ _ _ _ _ _
    rfl
  | succ d ih =>
    intro inds vals itIdx n k hd hpw hlen hlow hitS hitN
    have hk : k < n := by omega
    have hvalid : Data.AllIterator.IsValid ⟨inds, vals, itIdx, n, k⟩ = true := by
      simp [Data.AllIterator.IsValid]
      omega
    rw [Data.AllIterator.toListAux, if_pos hvalid, List.range'_succ,
      List.map_cons]
    by_cases hki : k = itIdx
    · cases inds with
      | nil =>
        have := hitN rfl
        omega
      | cons i js =>
        rcases hitS i rfl with hii | ⟨hni, _⟩
        · have hkeq : k = i := by omega
          cases vals with
          | nil => simp at hlen
          | cons x xs =>
            have hget : Data.AllIterator.Get ⟨i :: js, x :: xs, itIdx, n, k⟩ =
                ⟨k, x⟩ := by
              simp [Data.AllIterator.Get, hki]
            have hsv : Data.storedValueAt (i :: js) (x :: xs) k = x := by
              rw [Data.storedValueAt, if_pos hkeq.symm]
            have hnext : Data.AllIterator.Next ⟨i :: js, x :: xs, itIdx, n, k⟩ =
                ⟨js, xs,
                  (match js.head? with
                   | some j => if j < n then j else n
                   | none => n), n, k + 1⟩ := by
              simp [Data.AllIterator.Next, hki]
            rw [hget, hnext, hsv]
            have hlow2 : ∀ j, js.head? = some j → k + 1 ≤ j := by
              intro j hj
              cases js with
              | nil => exact absurd hj (by simp)
              | cons j0 t =>
                have hj0 : j0 = j := by
                  simpa using hj
                have := (List.pairwise_cons.mp hpw).1 j0
                  (List.mem_cons_self j0 t)
                omega
            have hitS2 : ∀ j, js.head? = some j →
                (match js.head? with
                 | some j => if j < n then j else n
                 | none => n) = j ∨
                (n ≤ (match js.head? with
                      | some j => if j < n then j else n
                      | none => n) ∧ n ≤ j) := by
              intro j hj
              rw [hj]
              by_cases hjn : j < n
              · exact Or.inl (by simp [hjn])
              · refine Or.inr ⟨by simp [hjn], by omega⟩
            have hitN2 : js = [] →
                n ≤ (match js.head? with
                     | some j => if j < n then j else n
                     | none => n) := by
              intro hje
              rw [hje]
              exact Nat.le_refl n
            rw [ih js xs _ n (k + 1) (by omega) (List.pairwise_cons.mp hpw).2
              (by simpa using hlen) hlow2 hitS2 hitN2]
            refine congrArg (List.cons _) (List.map_congr_left ?_)
            intro a ha
            have hka : k + 1 ≤ a := (List.mem_range'_1.mp ha).1
            have hia : ¬ i = a := by omega
            rw [Data.storedValueAt, if_neg hia]
        · omega
    · have hget : Data.AllIterator.Get ⟨inds, vals, itIdx, n, k⟩ = ⟨k, 0⟩ := by
        simp [Data.AllIterator.Get, hki]
      have hnext : Data.AllIterator.Next ⟨inds, vals, itIdx, n, k⟩ =
          ⟨inds, vals, itIdx, n, k + 1⟩ := by
        simp [Data.AllIterator.Next, hki]
      have hlow2 : ∀ i, inds.head? = some i → k + 1 ≤ i := by
        intro i hi
        rcases hitS i hi with hii | ⟨hni, hni2⟩
        · have := hlow i hi
          omega
        · omega
      have hsv : Data.storedValueAt inds vals k = 0 := by
        cases inds with
        | nil => rfl
        | cons i js =>
          have hki2 : k + 1 ≤ i := hlow2 i rfl
          refine storedValueAt_eq_zero _ _ _ ?_
          intro j hj
          rcases List.mem_cons.mp hj with h1 | h2
          · omega
          · have := (List.pairwise_cons.mp hpw).1 j h2
            omega
      rw [hget, hnext, hsv,
        ih inds vals itIdx n (k + 1) (by omega) hpw hlen hlow2 hitS hitN]

/-- C10: for every well-formed sparse vector and every prefix size `n`, the
`IterationPolicy::all` iterator obtained through `GetIterator(n)` yields
exactly `n` iterates, in index order `0, ..., n - 1`, each being the index
paired with the stored value at that index when the vector stores one and
with `0` otherwise. -/
theorem claim_C10_all_iterator_yields (v : Data.SparseDataVector) (n : Nat)
    (h : Data.WellFormed v) :
    (Data.GetIteratorAll v n).toList =
      (List.range n).map
        (fun i => ⟨i, Data.storedValueAt v.indexList v.values i⟩) := by
  obtain ⟨hpw, hlen⟩ := h
  rw [List.range_eq_range']
  refine toListAux_range n v.indexList v.values _ n 0 rfl hpw hlen
    (fun i _ => Nat.zero_le i) ?_ ?_
  · intro i hi
    rw [hi]
    exact Or.inl rfl
  · intro he
    rw [he]
    exact Nat.le_refl n

/-- C10 witness: the concrete sparse vector storing 5 at index 1 and 7 at
index 3, iterated over the prefix of size 5. -/
theorem claim_C10_witness :
    Data.WellFormed ⟨[1, 3], [5, 7]⟩ ∧
    (Data.GetIteratorAll ⟨[1, 3], [5, 7]⟩ 5).toList =
      (List.range 5).map
        (fun i => ⟨i, Data.storedValueAt [1, 3] [5, 7] i⟩) ∧
    (Data.GetIteratorAll ⟨[1, 3], [5, 7]⟩ 5).toList =
      [⟨0, 0⟩, ⟨1, 5⟩, ⟨2, 0⟩, ⟨3, 7⟩, ⟨4, 0⟩] :=
  ⟨by decide, claim_C10_all_iterator_yields ⟨[1, 3], [5, 7]⟩ 5 (by decide),
   by decide⟩

end ELL
